import Mathlib

/-!
Shallow embedding of the GitSync status-tracking core
(`src/api/v1alpha1/gitsync_types.go`): the phase tracker and the
condition-set merge algorithm (`setCondition`, `markTypeStatus`,
`InitializeConditions`, the composite `Mark*` operations).

Modelling decisions:
* `metav1.Condition` is embedded with the fields this repository reads and
  writes: Type, Status, Reason, Message, LastTransitionTime.  The Go
  `ConditionStatus` and `GitSyncPhase` are string types, embedded as `String`
  with the same constant values.  Time is embedded as `Nat`; `time.Now()`
  becomes an explicit `now : Nat` argument (one clock reading per
  `setCondition` call).
* Go's `reflect.DeepEqual(&condition, &c)` is structural equality of the two
  condition records, here decidable equality on `Condition`.
* `sort.Slice(conditions, λ i j, conditions[i].Type < conditions[j].Type)`
  is embedded as an insertion sort on the `type` field; for lists whose
  types are pairwise distinct (the only lists the code builds) every sort
  agreeing with that comparator produces the same list.
-/

/-- Embeds `metav1.Condition` restricted to the fields the repository
reads and writes (`ObservedGeneration` is never touched by this code). -/
structure Condition where
  type : String
  status : String
  reason : String
  message : String
  lastTransitionTime : Nat
deriving DecidableEq, Repr

/-- Embeds `CommitStatus` (hash, synced, syncTime, error). -/
structure CommitStatus where
  hash : String
  synced : Bool
  syncTime : Nat
  error : String
deriving DecidableEq, Repr

/-- Embeds `GitSyncStatus`: Phase, Conditions, Message, CommitStatus. -/
structure GitSyncStatus where
  phase : String
  conditions : List Condition
  message : String
  commitStatus : Option CommitStatus
deriving DecidableEq, Repr

/-- The effective part of a condition: every field except
`LastTransitionTime`. -/
structure EffCondition where
  type : String
  status : String
  reason : String
  message : String
deriving DecidableEq, Repr

/-- Projection of a condition to its effective fields. -/
def Condition.eff (c : Condition) : EffCondition :=
  ⟨c.type, c.status, c.reason, c.message⟩

/-- `metav1.ConditionTrue`. -/
def conditionTrue : String := "True"

/-- `metav1.ConditionFalse`. -/
def conditionFalse : String := "False"

/-- `metav1.ConditionUnknown`. -/
def conditionUnknown : String := "Unknown"

/-- `GitSyncPhasePending`. -/
def gitSyncPhasePending : String := "Pending"

/-- `GitSyncPhaseRunning`. -/
def gitSyncPhaseRunning : String := "Running"

/-- `GitSyncPhaseFailed`. -/
def gitSyncPhaseFailed : String := "Failed"

/-- `GitSyncPhaseNA`. -/
def gitSyncPhaseNA : String := "NotApplicable"

/-- `GitSyncConditionConfigured`. -/
def gitSyncConditionConfigured : String := "Configured"

/-- The loop of `setCondition`: walks the stored conditions, keeping those of
a different Type; on meeting one of the same Type it copies that condition's
`LastTransitionTime` into the incoming condition and, if the two records are
then `reflect.DeepEqual`, aborts (`none` = the Go `return`).  On `some` it
yields the (possibly time-patched) incoming condition and the filtered
list, in their original order. -/
def scanConditions (incoming : Condition) : List Condition → Option (Condition × List Condition)
  | [] => some (incoming, [])
  | c :: rest =>
    if c.type ≠ incoming.type then
      match scanConditions incoming rest with
      | none => none
      | some (inc, filtered) => some (inc, c :: filtered)
    else
      let inc : Condition := { incoming with lastTransitionTime := c.lastTransitionTime }
      if inc = c then none else scanConditions inc rest

/-- Inserts a condition into a list ordered by `type`, matching the
comparator of the Go `sort.Slice` call (`Type <`). -/
def insertByType (c : Condition) : List Condition → List Condition
  | [] => [c]
  | d :: rest => if d.type < c.type then d :: insertByType c rest else c :: d :: rest

/-- Sorts a condition list by `type` ascending, as `sort.Slice` with
comparator `conditions[i].Type < conditions[j].Type` does. -/
def sortByType : List Condition → List Condition
  | [] => []
  | c :: rest => insertByType c (sortByType rest)

/-- Embeds `(*GitSyncStatus).setCondition`: upsert one condition, with the
no-op early return, the `time.Now()` stamp (`now`) and the sort. -/
def setCondition (status : GitSyncStatus) (now : Nat) (condition : Condition) : GitSyncStatus :=
  match scanConditions condition status.conditions with
  | none => status
  | some (cond, filtered) =>
    { status with
      conditions := sortByType (filtered ++ [{ cond with lastTransitionTime := now }]) }

/-- Embeds `(*GitSyncStatus).SetPhase`. -/
def SetPhase (status : GitSyncStatus) (phase : String) (msg : String) : GitSyncStatus :=
  { status with phase := phase, message := msg }

/-- The condition `InitializeConditions` builds for a type `t`: Status
Unknown, Reason "Unknown", other fields at their Go zero values. -/
def freshCondition (t : String) : Condition :=
  { type := t, status := conditionUnknown, reason := "Unknown", message := ""
    lastTransitionTime := 0 }

/-- Embeds the loop of `(*GitSyncStatus).InitializeConditions`: one
`setCondition` per requested type; `clock i` is the `time.Now()` value the
`i`-th iteration would observe. -/
def setUnknownFrom (clock : Nat → Nat) (i : Nat) (status : GitSyncStatus) :
    List String → GitSyncStatus
  | [] => status
  | t :: rest => setUnknownFrom clock (i + 1) (setCondition status (clock i) (freshCondition t)) rest

/-- Embeds `(*GitSyncStatus).InitializeConditions`. -/
def InitializeConditions (status : GitSyncStatus) (clock : Nat → Nat)
    (conditionTypes : List String) : GitSyncStatus :=
  setUnknownFrom clock 0 status conditionTypes

/-- Embeds `(*GitSyncStatus).InitConditions`: initialize the Configured
condition to Unknown, then set Phase Pending with an empty message. -/
def InitConditions (status : GitSyncStatus) (clock : Nat → Nat) : GitSyncStatus :=
  SetPhase (InitializeConditions status clock [gitSyncConditionConfigured]) gitSyncPhasePending ""

/-- Embeds `(*GitSyncStatus).markTypeStatus`: upsert a condition with the
given type/status/reason/message (the Go literal leaves
`LastTransitionTime` at its zero value). -/
def markTypeStatus (status : GitSyncStatus) (now : Nat) (t s reason message : String) :
    GitSyncStatus :=
  setCondition status now
    { type := t, status := s, reason := reason, message := message, lastTransitionTime := 0 }

/-- Embeds `(*GitSyncStatus).MarkConditionTrue`. -/
def MarkConditionTrue (status : GitSyncStatus) (now : Nat) (t : String) : GitSyncStatus :=
  markTypeStatus status now t conditionTrue "Successful" "Successful"

/-- Embeds `(*GitSyncStatus).MarkConditionFalse`. -/
def MarkConditionFalse (status : GitSyncStatus) (now : Nat) (t reason message : String) :
    GitSyncStatus :=
  markTypeStatus status now t conditionFalse reason message

/-- Embeds `(*GitSyncStatus).MarkConditionUnknown`. -/
def MarkConditionUnknown (status : GitSyncStatus) (now : Nat) (t reason message : String) :
    GitSyncStatus :=
  markTypeStatus status now t conditionUnknown reason message

/-- Embeds `(*GitSyncStatus).MarkRunning`. -/
def MarkRunning (status : GitSyncStatus) (now : Nat) : GitSyncStatus :=
  SetPhase (MarkConditionTrue status now gitSyncConditionConfigured) gitSyncPhaseRunning ""

/-- Embeds `(*GitSyncStatus).MarkFailed`. -/
def MarkFailed (status : GitSyncStatus) (now : Nat) (reason message : String) : GitSyncStatus :=
  SetPhase (MarkConditionFalse status now gitSyncConditionConfigured reason message)
    gitSyncPhaseFailed message

/-- Embeds `(*GitSyncStatus).MarkNotApplicable`. -/
def MarkNotApplicable (status : GitSyncStatus) (now : Nat) (reason message : String) :
    GitSyncStatus :=
  SetPhase (MarkConditionFalse status now gitSyncConditionConfigured reason message)
    gitSyncPhaseNA message

/-- A status as first observed: unset phase, no conditions, empty message,
nil commit record. -/
def emptyStatus : GitSyncStatus :=
  { phase := "", conditions := [], message := "", commitStatus := none }

/-- A sequence of `setCondition` calls, each with its own clock reading. -/
def applyUpserts (status : GitSyncStatus) : List (Nat × Condition) → GitSyncStatus
  | [] => status
  | (now, c) :: rest => applyUpserts (setCondition status now c) rest

/-- At most one condition per Type. -/
def uniqueTypes (l : List Condition) : Prop :=
  l.Pairwise (fun a b => a.type ≠ b.type)

/-- Sorted by Type ascending, with the comparator of the Go sort. -/
def sortedByType (l : List Condition) : Prop :=
  l.Pairwise (fun a b => ¬ b.type < a.type)

/-- Restamping a condition's time: the new record at type/status/reason/message
of `inc` and time `now`. -/
def stamped (c : Condition) (now : Nat) : Condition :=
  ⟨c.type, c.status, c.reason, c.message, now⟩

theorem eff_set_time (a : Condition) (n : Nat) :
    Condition.eff { a with lastTransitionTime := n } = a.eff := rfl

theorem eff_type (a : Condition) : a.eff.type = a.type := rfl

theorem eff_ext (a b : Condition) (heff : a.eff = b.eff)
    (ht : a.lastTransitionTime = b.lastTransitionTime) : a = b := by
  cases a; cases b
  simp only [Condition.eff, EffCondition.mk.injEq] at heff
  simp_all

theorem carry_eq_iff (a b : Condition) :
    ({ a with lastTransitionTime := b.lastTransitionTime } = b) ↔ a.eff = b.eff := by
  constructor
  · intro h
    calc a.eff = Condition.eff { a with lastTransitionTime := b.lastTransitionTime } := rfl
      _ = b.eff := by rw [h]
  · intro h
    exact eff_ext _ _ (by rw [eff_set_time]; exact h) rfl

/-- The loop of `setCondition` hits its early `return` exactly when some stored
condition agrees with the incoming one on every effective field. -/
theorem scan_none_iff (inc : Condition) (l : List Condition) :
    scanConditions inc l = none ↔ ∃ c ∈ l, c.eff = inc.eff := by
  induction l generalizing inc with
  | nil => simp [scanConditions]
  | cons d rest ih =>
    rw [scanConditions]
    by_cases hd : d.type = inc.type
    · rw [if_neg (by simpa using hd)]
      by_cases he : inc.eff = d.eff
      · rw [if_pos ((carry_eq_iff _ _).mpr he)]
        simp only [true_iff]
        exact ⟨d, List.mem_cons_self _ _, he.symm⟩
      · rw [if_neg (fun h => he ((carry_eq_iff _ _).mp h)), ih]
        simp only [eff_set_time]
        constructor
        · rintro ⟨c, hc, hce⟩
          exact ⟨c, List.mem_cons_of_mem _ hc, hce⟩
        · rintro ⟨c, hc, hce⟩
          rcases List.mem_cons.mp hc with rfl | hc'
          · exact absurd hce.symm he
          · exact ⟨c, hc', hce⟩
    · rw [if_pos hd]
      cases hres : scanConditions inc rest with
      | none =>
        simp only [true_iff]
        obtain ⟨c, hc, hce⟩ := (ih inc).mp hres
        exact ⟨c, List.mem_cons_of_mem _ hc, hce⟩
      | some p =>
        apply iff_of_false (by simp)
        rintro ⟨c, hc, hce⟩
        rcases List.mem_cons.mp hc with rfl | hc'
        · exact hd (by rw [← eff_type, hce, eff_type])
        · have : scanConditions inc rest = none := (ih inc).mpr ⟨c, hc', hce⟩
          rw [this] at hres
          cases hres

/-- When the loop completes, the surviving list is exactly the stored
conditions of a different Type, in order, and the incoming condition kept
its effective fields. -/
theorem scan_some_spec (inc inc' : Condition) (l fl : List Condition)
    (h : scanConditions inc l = some (inc', fl)) :
    inc'.eff = inc.eff ∧ fl = l.filter (fun c => c.type != inc.type) := by
  induction l generalizing inc inc' fl with
  | nil =>
    simp only [scanConditions, Option.some.injEq, Prod.mk.injEq] at h
    obtain ⟨h1, h2⟩ := h
    subst h1; subst h2
    exact ⟨rfl, rfl⟩
  | cons d rest ih =>
    rw [scanConditions] at h
    by_cases hd : d.type = inc.type
    · rw [if_neg (by simpa using hd)] at h
      by_cases heq : ({ inc with lastTransitionTime := d.lastTransitionTime } : Condition) = d
      · rw [if_pos heq] at h
        cases h
      · rw [if_neg heq] at h
        obtain ⟨h1, h2⟩ := ih _ _ _ h
        refine ⟨by rwa [eff_set_time] at h1, ?_⟩
        rw [h2]
        simp [List.filter_cons, hd]
    · rw [if_pos hd] at h
      cases hres : scanConditions inc rest with
      | none => rw [hres] at h; cases h
      | some p =>
        obtain ⟨i, f⟩ := p
        rw [hres] at h
        simp only [Option.some.injEq, Prod.mk.injEq] at h
        obtain ⟨h1, h2⟩ := h
        subst h1; subst h2
        obtain ⟨h1, h2⟩ := ih _ _ _ hres
        refine ⟨h1, ?_⟩
        rw [List.filter_cons, if_pos (by simpa using hd), h2]

/-- `setCondition` when some stored condition is effectively identical to the
incoming one: the Go early `return`, leaving the status untouched. -/
theorem setCondition_noop (s : GitSyncStatus) (now : Nat) (inc : Condition)
    (h : ∃ c ∈ s.conditions, c.eff = inc.eff) : setCondition s now inc = s := by
  rw [setCondition, (scan_none_iff inc s.conditions).mpr h]

/-- `setCondition` when no stored condition is effectively identical to the
incoming one: filter out the incoming Type, stamp, append, sort. -/
theorem setCondition_effective (s : GitSyncStatus) (now : Nat) (inc : Condition)
    (h : ∀ c ∈ s.conditions, c.eff ≠ inc.eff) :
    (setCondition s now inc).conditions =
      sortByType ((s.conditions.filter (fun c => c.type != inc.type)) ++ [stamped inc now]) := by
  rw [setCondition]
  cases hres : scanConditions inc s.conditions with
  | none =>
    obtain ⟨c, hc, hce⟩ := (scan_none_iff inc s.conditions).mp hres
    exact absurd hce (h c hc)
  | some p =>
    obtain ⟨i, f⟩ := p
    obtain ⟨h1, h2⟩ := scan_some_spec _ _ _ _ hres
    have hst : ({ i with lastTransitionTime := now } : Condition) = stamped inc now :=
      eff_ext _ _ (by rw [eff_set_time, h1]; rfl) rfl
    simp only [h2, hst]

/-- Either branch of `setCondition`: untouched, or filter-stamp-append-sort. -/
theorem setCondition_dichotomy (s : GitSyncStatus) (now : Nat) (inc : Condition) :
    setCondition s now inc = s ∨
    (setCondition s now inc).conditions =
      sortByType ((s.conditions.filter (fun c => c.type != inc.type)) ++ [stamped inc now]) := by
  by_cases h : ∃ c ∈ s.conditions, c.eff = inc.eff
  · exact Or.inl (setCondition_noop s now inc h)
  · push_neg at h
    exact Or.inr (setCondition_effective s now inc h)

theorem insertByType_perm (c : Condition) (l : List Condition) :
    (insertByType c l).Perm (c :: l) := by
  induction l with
  | nil => exact List.Perm.refl _
  | cons d rest ih =>
    rw [insertByType]
    by_cases h : d.type < c.type
    · rw [if_pos h]
      exact (ih.cons d).trans (List.Perm.swap c d rest)
    · rw [if_neg h]

theorem sortByType_perm (l : List Condition) : (sortByType l).Perm l := by
  induction l with
  | nil => exact List.Perm.refl _
  | cons c rest ih =>
    rw [sortByType]
    exact (insertByType_perm c (sortByType rest)).trans (ih.cons c)

theorem insertByType_sorted (c : Condition) (l : List Condition) (h : sortedByType l) :
    sortedByType (insertByType c l) := by
  induction l with
  | nil => simp [insertByType, sortedByType]
  | cons d rest ih =>
    rw [sortedByType, List.pairwise_cons] at h
    obtain ⟨hd, hrest⟩ := h
    rw [insertByType]
    by_cases hlt : d.type < c.type
    · rw [if_pos hlt, sortedByType, List.pairwise_cons]
      refine ⟨?_, ih hrest⟩
      intro e he
      rcases List.mem_cons.mp ((insertByType_perm c rest).mem_iff.mp he) with rfl | h'
      · exact fun hce => absurd hlt (lt_asymm hce)
      · exact hd e h'
    · rw [if_neg hlt, sortedByType, List.pairwise_cons]
      constructor
      · intro e he
        rcases List.mem_cons.mp he with rfl | h'
        · exact hlt
        · exact not_lt.mpr ((not_lt.mp hlt).trans (not_lt.mp (hd e h')))
      · exact List.pairwise_cons.mpr ⟨hd, hrest⟩

theorem sortByType_sorted (l : List Condition) : sortedByType (sortByType l) := by
  induction l with
  | nil => simp [sortByType, sortedByType]
  | cons c rest ih => exact insertByType_sorted c _ ih

theorem uniqueTypes_of_perm {l₁ l₂ : List Condition} (hp : l₁.Perm l₂)
    (h : uniqueTypes l₁) : uniqueTypes l₂ :=
  (hp.pairwise_iff (fun hxy => Ne.symm hxy)).mp h

theorem eq_of_uniqueTypes {l : List Condition} (h : uniqueTypes l) {a b : Condition}
    (ha : a ∈ l) (hb : b ∈ l) (ht : a.type = b.type) : a = b := by
  induction l with
  | nil => cases ha
  | cons d rest ih =>
    rw [uniqueTypes, List.pairwise_cons] at h
    obtain ⟨hd, hrest⟩ := h
    rcases List.mem_cons.mp ha with rfl | ha' <;> rcases List.mem_cons.mp hb with rfl | hb'
    · rfl
    · exact absurd ht (hd b hb')
    · exact absurd ht.symm (hd a ha')
    · exact ih hrest ha' hb'

/-- Membership in the post-state of an effective upsert: exactly the
differently-typed survivors plus the freshly stamped condition. -/
theorem mem_effective_iff (s : GitSyncStatus) (now : Nat) (inc : Condition)
    (heff : (setCondition s now inc).conditions =
      sortByType ((s.conditions.filter (fun c => c.type != inc.type)) ++ [stamped inc now]))
    (e : Condition) :
    e ∈ (setCondition s now inc).conditions ↔
      (e ∈ s.conditions ∧ e.type ≠ inc.type) ∨ e = stamped inc now := by
  rw [heff, (sortByType_perm _).mem_iff, List.mem_append, List.mem_filter,
    List.mem_singleton, bne_iff_ne, ne_eq]

theorem setCondition_uniqueTypes (s : GitSyncStatus) (now : Nat) (inc : Condition)
    (h : uniqueTypes s.conditions) : uniqueTypes (setCondition s now inc).conditions := by
  rcases setCondition_dichotomy s now inc with heq | heff
  · rw [heq]; exact h
  · rw [heff]
    apply uniqueTypes_of_perm (sortByType_perm _).symm
    rw [uniqueTypes, List.pairwise_append]
    refine ⟨List.Pairwise.sublist (List.filter_sublist _) h, List.pairwise_singleton _ _, ?_⟩
    intro a ha b hb
    obtain ⟨_, ha2⟩ := List.mem_filter.mp ha
    rw [List.mem_singleton.mp hb]
    exact bne_iff_ne.mp ha2

theorem setCondition_sorted (s : GitSyncStatus) (now : Nat) (inc : Condition)
    (h : sortedByType s.conditions) : sortedByType (setCondition s now inc).conditions := by
  rcases setCondition_dichotomy s now inc with heq | heff
  · rw [heq]; exact h
  · rw [heff]; exact sortByType_sorted _

/-- After any `setCondition`, a condition with the incoming effective fields
is stored. -/
theorem setCondition_eff_mem (s : GitSyncStatus) (now : Nat) (inc : Condition) :
    ∃ c ∈ (setCondition s now inc).conditions, c.eff = inc.eff := by
  by_cases h : ∃ c ∈ s.conditions, c.eff = inc.eff
  · rw [setCondition_noop s now inc h]; exact h
  · push_neg at h
    have heff := setCondition_effective s now inc h
    exact ⟨stamped inc now, (mem_effective_iff s now inc heff _).mpr (Or.inr rfl), rfl⟩

/-- An upsert of a different Type, or of the same effective fields, keeps a
stored effective record present. -/
theorem eff_mem_preserved (s : GitSyncStatus) (now : Nat) (inc : Condition) (E : EffCondition)
    (h : ∃ c ∈ s.conditions, c.eff = E)
    (hcase : E.type ≠ inc.type ∨ E = inc.eff) :
    ∃ c ∈ (setCondition s now inc).conditions, c.eff = E := by
  rcases setCondition_dichotomy s now inc with heq | heff
  · rw [heq]; exact h
  · rcases hcase with hty | heq2
    · obtain ⟨c, hc, hce⟩ := h
      refine ⟨c, (mem_effective_iff s now inc heff _).mpr (Or.inl ⟨hc, ?_⟩), hce⟩
      rw [show c.type = E.type from by rw [← hce]; rfl]
      exact hty
    · exact ⟨stamped inc now, (mem_effective_iff s now inc heff _).mpr (Or.inr rfl),
        by rw [heq2]; rfl⟩

theorem setCondition_idem (s : GitSyncStatus) (n₁ n₂ : Nat) (c : Condition) :
    setCondition (setCondition s n₁ c) n₂ c = setCondition s n₁ c :=
  setCondition_noop _ _ _ (setCondition_eff_mem s n₁ c)

/-- `setCondition` touches only the conditions list. -/
theorem setCondition_frame (s : GitSyncStatus) (now : Nat) (c : Condition) :
    (setCondition s now c).phase = s.phase ∧ (setCondition s now c).message = s.message ∧
      (setCondition s now c).commitStatus = s.commitStatus := by
  rw [setCondition]
  cases scanConditions c s.conditions with
  | none => exact ⟨rfl, rfl, rfl⟩
  | some p => exact ⟨rfl, rfl, rfl⟩

/-- `setCondition` and `SetPhase` commute. -/
theorem setCondition_setPhase (s : GitSyncStatus) (now : Nat) (c : Condition)
    (p m : String) :
    setCondition (SetPhase s p m) now c = SetPhase (setCondition s now c) p m := by
  rw [setCondition, setCondition, SetPhase]
  cases scanConditions c s.conditions with
  | none => rfl
  | some q => rfl

theorem setPhase_setPhase (s : GitSyncStatus) (p m p' m' : String) :
    SetPhase (SetPhase s p m) p' m' = SetPhase s p' m' := rfl

/-- Initializing further types keeps a stored Unknown/"Unknown" record for a
type present. -/
theorem fresh_mem_preserved (clock : Nat → Nat) (i : Nat) (s : GitSyncStatus)
    (types : List String) (t0 : String)
    (h : ∃ c ∈ s.conditions, c.eff = (freshCondition t0).eff) :
    ∃ c ∈ (setUnknownFrom clock i s types).conditions, c.eff = (freshCondition t0).eff := by
  induction types generalizing s i with
  | nil => exact h
  | cons t rest ih =>
    rw [setUnknownFrom]
    apply ih
    apply eff_mem_preserved _ _ _ _ h
    by_cases ht : t0 = t
    · exact Or.inr (by rw [ht])
    · exact Or.inl ht

/-- After `InitializeConditions`, every requested type has a stored
Unknown/"Unknown" record. -/
theorem fresh_mem_after (clock : Nat → Nat) (i : Nat) (s : GitSyncStatus)
    (types : List String) (t : String) (ht : t ∈ types) :
    ∃ c ∈ (setUnknownFrom clock i s types).conditions, c.eff = (freshCondition t).eff := by
  induction types generalizing s i with
  | nil => cases ht
  | cons t' rest ih =>
    rw [setUnknownFrom]
    rcases List.mem_cons.mp ht with rfl | h'
    · exact fresh_mem_preserved clock (i + 1) _ rest t (setCondition_eff_mem s (clock i) _)
    · exact ih _ _ h'

/-- When every requested type already has its Unknown/"Unknown" record
stored, `InitializeConditions` is the identity. -/
theorem setUnknownFrom_noop (clock : Nat → Nat) (i : Nat) (s : GitSyncStatus)
    (types : List String)
    (h : ∀ t ∈ types, ∃ c ∈ s.conditions, c.eff = (freshCondition t).eff) :
    setUnknownFrom clock i s types = s := by
  induction types generalizing i with
  | nil => rfl
  | cons t rest ih =>
    rw [setUnknownFrom, setCondition_noop _ _ _ (h t (List.mem_cons_self _ _))]
    exact ih _ (fun t' ht' => h t' (List.mem_cons_of_mem _ ht'))

theorem initializeConditions_idem (s : GitSyncStatus) (clock₁ clock₂ : Nat → Nat)
    (types : List String) :
    InitializeConditions (InitializeConditions s clock₁ types) clock₂ types =
      InitializeConditions s clock₁ types :=
  setUnknownFrom_noop clock₂ 0 _ types
    (fun t ht => fresh_mem_after clock₁ 0 s types t ht)

theorem setUnknownFrom_frame (clock : Nat → Nat) (i : Nat) (s : GitSyncStatus)
    (types : List String) :
    (setUnknownFrom clock i s types).phase = s.phase ∧
      (setUnknownFrom clock i s types).message = s.message ∧
      (setUnknownFrom clock i s types).commitStatus = s.commitStatus := by
  induction types generalizing s i with
  | nil => exact ⟨rfl, rfl, rfl⟩
  | cons t rest ih =>
    rw [setUnknownFrom]
    obtain ⟨h1, h2, h3⟩ := ih (i + 1) (setCondition s (clock i) (freshCondition t))
    obtain ⟨g1, g2, g3⟩ := setCondition_frame s (clock i) (freshCondition t)
    exact ⟨h1.trans g1, h2.trans g2, h3.trans g3⟩

theorem markTypeStatus_idem (s : GitSyncStatus) (n₁ n₂ : Nat) (t st r m : String) :
    markTypeStatus (markTypeStatus s n₁ t st r m) n₂ t st r m = markTypeStatus s n₁ t st r m :=
  setCondition_idem s n₁ n₂ _

theorem markRunning_idem (s : GitSyncStatus) (n₁ n₂ : Nat) :
    MarkRunning (MarkRunning s n₁) n₂ = MarkRunning s n₁ := by
  rw [MarkRunning, MarkRunning, MarkConditionTrue, MarkConditionTrue, markTypeStatus,
    markTypeStatus, setCondition_setPhase, setPhase_setPhase, setCondition_idem]

theorem markFailed_idem (s : GitSyncStatus) (n₁ n₂ : Nat) (r m : String) :
    MarkFailed (MarkFailed s n₁ r m) n₂ r m = MarkFailed s n₁ r m := by
  rw [MarkFailed, MarkFailed, MarkConditionFalse, MarkConditionFalse, markTypeStatus,
    markTypeStatus, setCondition_setPhase, setPhase_setPhase, setCondition_idem]

theorem markNotApplicable_idem (s : GitSyncStatus) (n₁ n₂ : Nat) (r m : String) :
    MarkNotApplicable (MarkNotApplicable s n₁ r m) n₂ r m = MarkNotApplicable s n₁ r m := by
  rw [MarkNotApplicable, MarkNotApplicable, MarkConditionFalse, MarkConditionFalse,
    markTypeStatus, markTypeStatus, setCondition_setPhase, setPhase_setPhase, setCondition_idem]

theorem applyUpserts_uniqueTypes (s : GitSyncStatus) (calls : List (Nat × Condition))
    (h : uniqueTypes s.conditions) : uniqueTypes (applyUpserts s calls).conditions := by
  induction calls generalizing s with
  | nil => exact h
  | cons p rest ih =>
    obtain ⟨now, c⟩ := p
    exact ih _ (setCondition_uniqueTypes s now c h)

theorem applyUpserts_sorted (s : GitSyncStatus) (calls : List (Nat × Condition))
    (h : sortedByType s.conditions) : sortedByType (applyUpserts s calls).conditions := by
  induction calls generalizing s with
  | nil => exact h
  | cons p rest ih =>
    obtain ⟨now, c⟩ := p
    exact ih _ (setCondition_sorted s now c h)

theorem strA_lt_B : ("A" : String) < "B" :=
  String.lt_iff_toList_lt.mpr (by decide)

theorem strB_not_lt_A : ¬ ("B" : String) < "A" := by
  intro h
  have h2 := String.lt_iff_toList_lt.mp h
  revert h2
  decide

theorem listA_lt_B : (['A'] : List Char) < ['B'] := by decide

theorem listB_not_lt_A : ¬ (['B'] : List Char) < ['A'] := by decide

/-- C9: `SetPhase` unconditionally overwrites Phase and Message and leaves
Conditions and CommitStatus unchanged. -/
theorem C9_set_phase_overwrites (s : GitSyncStatus) (phase msg : String) :
    (SetPhase s phase msg).phase = phase ∧ (SetPhase s phase msg).message = msg ∧
      (SetPhase s phase msg).conditions = s.conditions ∧
      (SetPhase s phase msg).commitStatus = s.commitStatus :=
  ⟨rfl, rfl, rfl, rfl⟩

/-- C10: the pure condition operations (`setCondition`, `markTypeStatus`,
`InitializeConditions`, `MarkConditionTrue`, `MarkConditionFalse`,
`MarkConditionUnknown`) never modify Phase, Message or CommitStatus, and no
core operation (`SetPhase`, `InitConditions`, `MarkRunning`, `MarkFailed`,
`MarkNotApplicable` included) ever modifies CommitStatus. -/
theorem C10_frame_effects :
    (∀ (s : GitSyncStatus) (now : Nat) (c : Condition),
      (setCondition s now c).phase = s.phase ∧ (setCondition s now c).message = s.message ∧
        (setCondition s now c).commitStatus = s.commitStatus) ∧
    (∀ (s : GitSyncStatus) (now : Nat) (t st r m : String),
      (markTypeStatus s now t st r m).phase = s.phase ∧
        (markTypeStatus s now t st r m).message = s.message ∧
        (markTypeStatus s now t st r m).commitStatus = s.commitStatus) ∧
    (∀ (s : GitSyncStatus) (clock : Nat → Nat) (types : List String),
      (InitializeConditions s clock types).phase = s.phase ∧
        (InitializeConditions s clock types).message = s.message ∧
        (InitializeConditions s clock types).commitStatus = s.commitStatus) ∧
    (∀ (s : GitSyncStatus) (now : Nat) (t : String),
      (MarkConditionTrue s now t).phase = s.phase ∧
        (MarkConditionTrue s now t).message = s.message ∧
        (MarkConditionTrue s now t).commitStatus = s.commitStatus) ∧
    (∀ (s : GitSyncStatus) (now : Nat) (t r m : String),
      (MarkConditionFalse s now t r m).phase = s.phase ∧
        (MarkConditionFalse s now t r m).message = s.message ∧
        (MarkConditionFalse s now t r m).commitStatus = s.commitStatus) ∧
    (∀ (s : GitSyncStatus) (now : Nat) (t r m : String),
      (MarkConditionUnknown s now t r m).phase = s.phase ∧
        (MarkConditionUnknown s now t r m).message = s.message ∧
        (MarkConditionUnknown s now t r m).commitStatus = s.commitStatus) ∧
    (∀ (s : GitSyncStatus) (phase msg : String),
      (SetPhase s phase msg).commitStatus = s.commitStatus) ∧
    (∀ (s : GitSyncStatus) (clock : Nat → Nat),
      (InitConditions s clock).commitStatus = s.commitStatus) ∧
    (∀ (s : GitSyncStatus) (now : Nat),
      (MarkRunning s now).commitStatus = s.commitStatus) ∧
    (∀ (s : GitSyncStatus) (now : Nat) (r m : String),
      (MarkFailed s now r m).commitStatus = s.commitStatus) ∧
    (∀ (s : GitSyncStatus) (now : Nat) (r m : String),
      (MarkNotApplicable s now r m).commitStatus = s.commitStatus) := by
  refine ⟨setCondition_frame, ?_, ?_, ?_, ?_, ?_, ?_, ?_, ?_, ?_, ?_⟩
  · intro s now t st r m
    exact setCondition_frame s now _
  · intro s clock types
    exact setUnknownFrom_frame clock 0 s types
  · intro s now t
    exact setCondition_frame s now _
  · intro s now t r m
    exact setCondition_frame s now _
  · intro s now t r m
    exact setCondition_frame s now _
  · intro s phase msg
    rfl
  · intro s clock
    exact (setUnknownFrom_frame clock 0 s _).2.2
  · intro s now
    exact (setCondition_frame s now _).2.2
  · intro s now r m
    exact (setCondition_frame s now _).2.2
  · intro s now r m
    exact (setCondition_frame s now _).2.2

/-- C1: re-asserting a condition whose effective fields (Type, Status,
Reason, Message) match a stored one is a complete no-op: `setCondition`
returns with the status, every stored condition and every
LastTransitionTime exactly as they were. -/
theorem C1_setCondition_identical_is_noop (s : GitSyncStatus) (now : Nat)
    (inc c : Condition) (hmem : c ∈ s.conditions) (ht : c.type = inc.type)
    (hs : c.status = inc.status) (hr : c.reason = inc.reason)
    (hm : c.message = inc.message) : setCondition s now inc = s :=
  setCondition_noop s now inc
    ⟨c, hmem, by simp [Condition.eff, ht, hs, hr, hm]⟩

theorem C1_witness :
    ((⟨"Configured", "True", "ok", "all good", 3⟩ : Condition) ∈
      (⟨"Running", [⟨"Configured", "True", "ok", "all good", 3⟩], "", none⟩ :
        GitSyncStatus).conditions) ∧
    setCondition ⟨"Running", [⟨"Configured", "True", "ok", "all good", 3⟩], "", none⟩ 9
        ⟨"Configured", "True", "ok", "all good", 7⟩ =
      ⟨"Running", [⟨"Configured", "True", "ok", "all good", 3⟩], "", none⟩ :=
  ⟨by simp,
    C1_setCondition_identical_is_noop _ 9 _ ⟨"Configured", "True", "ok", "all good", 3⟩
      (by simp) rfl rfl rfl rfl⟩

/-- C3: starting from a status with at most one condition per Type, any
`setCondition` call — and hence any sequence of upserts — yields a
conditions list with at most one condition per Type. -/
theorem C3_upserts_preserve_unique_types (s : GitSyncStatus)
    (h : uniqueTypes s.conditions) :
    (∀ (now : Nat) (inc : Condition), uniqueTypes (setCondition s now inc).conditions) ∧
    (∀ calls : List (Nat × Condition), uniqueTypes (applyUpserts s calls).conditions) :=
  ⟨fun now inc => setCondition_uniqueTypes s now inc h,
    fun calls => applyUpserts_uniqueTypes s calls h⟩

theorem C3_witness :
    uniqueTypes (⟨"", [⟨"A", "True", "r", "m", 0⟩], "", none⟩ :
      GitSyncStatus).conditions ∧
    uniqueTypes ((applyUpserts ⟨"", [⟨"A", "True", "r", "m", 0⟩], "", none⟩
      [(1, ⟨"B", "Unknown", "u", "w", 0⟩)]).conditions) :=
  ⟨by simp [uniqueTypes],
    (C3_upserts_preserve_unique_types _ (by simp [uniqueTypes])).2 _⟩

/-- A status whose stored conditions are not sorted by Type. -/
def unsortedStatus : GitSyncStatus :=
  ⟨"", [⟨"B", "True", "r", "m", 0⟩, ⟨"A", "True", "r", "m", 0⟩], "", none⟩

/-- C4 counterexample: on a status whose stored list is not sorted, a
single upsert (trivially with distinct Types) that is effectively identical
to a stored condition takes the no-op early return, so the list is still
unsorted after the call — the claim fails for an arbitrary starting
status. -/
theorem C4_counterexample :
    ¬ sortedByType ((applyUpserts unsortedStatus
      [(5, ⟨"B", "True", "r", "m", 9⟩)]).conditions) := by
  have hstep : applyUpserts unsortedStatus [(5, ⟨"B", "True", "r", "m", 9⟩)] =
      setCondition unsortedStatus 5 ⟨"B", "True", "r", "m", 9⟩ := rfl
  have hnoop : setCondition unsortedStatus 5 ⟨"B", "True", "r", "m", 9⟩ = unsortedStatus :=
    setCondition_noop _ _ _ ⟨⟨"B", "True", "r", "m", 0⟩, by simp [unsortedStatus], rfl⟩
  rw [hstep, hnoop]
  intro hsorted
  simp only [unsortedStatus, sortedByType] at hsorted
  exact (List.pairwise_cons.mp hsorted).1 _ (List.mem_singleton_self _) strA_lt_B

/-- C4 (amended): for every status whose Conditions list is sorted by Type —
in particular the empty initial status — and every sequence of
`setCondition` calls with distinct Types, the stored list is sorted by Type
ascending after each call. -/
theorem C4_sorted_status_stays_sorted (s : GitSyncStatus)
    (calls : List (Nat × Condition)) (hsorted : sortedByType s.conditions)
    (_hdistinct : (calls.map (fun p => p.2.type)).Pairwise (fun a b => a ≠ b)) :
    sortedByType (applyUpserts s calls).conditions :=
  applyUpserts_sorted s calls hsorted

theorem C4_witness :
    sortedByType emptyStatus.conditions ∧
    (([(1, (⟨"B", "True", "r", "m", 0⟩ : Condition)),
       (2, (⟨"A", "Unknown", "u", "w", 0⟩ : Condition))].map
        (fun p => p.2.type)).Pairwise (fun a b => a ≠ b)) ∧
    sortedByType ((applyUpserts emptyStatus
      [(1, ⟨"B", "True", "r", "m", 0⟩), (2, ⟨"A", "Unknown", "u", "w", 0⟩)]).conditions) :=
  ⟨by simp [emptyStatus, sortedByType],
    by simp,
    C4_sorted_status_stays_sorted emptyStatus _
      (by simp [emptyStatus, sortedByType]) (by simp)⟩

/-- C2: every Mark/Upsert operation is idempotent — a second call with the
same logical arguments (at any later clock reading) leaves the status,
including every LastTransitionTime, exactly as the first call left it. -/
theorem C2_mark_upsert_idempotent :
    (∀ (s : GitSyncStatus) (n₁ n₂ : Nat) (c : Condition),
      setCondition (setCondition s n₁ c) n₂ c = setCondition s n₁ c) ∧
    (∀ (s : GitSyncStatus) (n₁ n₂ : Nat) (t st r m : String),
      markTypeStatus (markTypeStatus s n₁ t st r m) n₂ t st r m =
        markTypeStatus s n₁ t st r m) ∧
    (∀ (s : GitSyncStatus) (n₁ n₂ : Nat) (t : String),
      MarkConditionTrue (MarkConditionTrue s n₁ t) n₂ t = MarkConditionTrue s n₁ t) ∧
    (∀ (s : GitSyncStatus) (n₁ n₂ : Nat) (t r m : String),
      MarkConditionFalse (MarkConditionFalse s n₁ t r m) n₂ t r m =
        MarkConditionFalse s n₁ t r m) ∧
    (∀ (s : GitSyncStatus) (n₁ n₂ : Nat) (t r m : String),
      MarkConditionUnknown (MarkConditionUnknown s n₁ t r m) n₂ t r m =
        MarkConditionUnknown s n₁ t r m) ∧
    (∀ (s : GitSyncStatus) (n₁ n₂ : Nat),
      MarkRunning (MarkRunning s n₁) n₂ = MarkRunning s n₁) ∧
    (∀ (s : GitSyncStatus) (n₁ n₂ : Nat) (r m : String),
      MarkFailed (MarkFailed s n₁ r m) n₂ r m = MarkFailed s n₁ r m) ∧
    (∀ (s : GitSyncStatus) (n₁ n₂ : Nat) (r m : String),
      MarkNotApplicable (MarkNotApplicable s n₁ r m) n₂ r m =
        MarkNotApplicable s n₁ r m) ∧
    (∀ (s : GitSyncStatus) (clock₁ clock₂ : Nat → Nat) (types : List String),
      InitializeConditions (InitializeConditions s clock₁ types) clock₂ types =
        InitializeConditions s clock₁ types) := by
  refine ⟨setCondition_idem, markTypeStatus_idem, ?_, ?_, ?_,
    markRunning_idem, markFailed_idem, markNotApplicable_idem, initializeConditions_idem⟩
  · intro s n₁ n₂ t
    exact markTypeStatus_idem s n₁ n₂ t conditionTrue "Successful" "Successful"
  · intro s n₁ n₂ t r m
    exact markTypeStatus_idem s n₁ n₂ t conditionFalse r m
  · intro s n₁ n₂ t r m
    exact markTypeStatus_idem s n₁ n₂ t conditionUnknown r m

/-- C5: for a status holding one condition of the incoming Type, an upsert
that changes any of Status/Reason/Message stores that Type with
LastTransitionTime equal to the current time (hence ≥ the previous stamp
under a monotone clock), while an upsert changing none of them leaves the
status, timestamps included, untouched. -/
theorem C5_timestamp_change (s : GitSyncStatus) (now : Nat) (inc c : Condition)
    (hmem : c ∈ s.conditions) (ht : c.type = inc.type)
    (huniq : uniqueTypes s.conditions) (hmono : c.lastTransitionTime ≤ now) :
    ((c.status ≠ inc.status ∨ c.reason ≠ inc.reason ∨ c.message ≠ inc.message) →
      ∃ d ∈ (setCondition s now inc).conditions,
        d.type = inc.type ∧ d.lastTransitionTime = now ∧
          c.lastTransitionTime ≤ d.lastTransitionTime ∧
          ∀ e ∈ (setCondition s now inc).conditions, e.type = inc.type → e = d) ∧
    ((c.status = inc.status ∧ c.reason = inc.reason ∧ c.message = inc.message) →
      setCondition s now inc = s) := by
  constructor
  · intro hdiff
    have hno : ∀ c' ∈ s.conditions, c'.eff ≠ inc.eff := by
      intro c' hc' he
      have htc' : c'.type = c.type := by
        rw [ht]
        exact congrArg EffCondition.type he
      have hcc : c' = c := eq_of_uniqueTypes huniq hc' hmem htc'
      subst hcc
      rcases hdiff with hd | hd | hd
      · exact hd (congrArg EffCondition.status he)
      · exact hd (congrArg EffCondition.reason he)
      · exact hd (congrArg EffCondition.message he)
    have heff := setCondition_effective s now inc hno
    refine ⟨stamped inc now, (mem_effective_iff s now inc heff _).mpr (Or.inr rfl),
      rfl, rfl, hmono, ?_⟩
    intro e hemem hetype
    rcases (mem_effective_iff s now inc heff _).mp hemem with ⟨_, hne⟩ | heq
    · exact absurd hetype hne
    · exact heq
  · rintro ⟨hs, hr, hm⟩
    exact setCondition_noop s now inc ⟨c, hmem, by simp [Condition.eff, ht, hs, hr, hm]⟩

theorem C5_witness :
    ∃ d ∈ (setCondition ⟨"", [⟨"Configured", "True", "ok", "m", 3⟩], "", none⟩ 9
        ⟨"Configured", "False", "bad", "m2", 0⟩).conditions,
      d.type = "Configured" ∧ d.lastTransitionTime = 9 ∧ 3 ≤ d.lastTransitionTime ∧
        ∀ e ∈ (setCondition ⟨"", [⟨"Configured", "True", "ok", "m", 3⟩], "", none⟩ 9
            ⟨"Configured", "False", "bad", "m2", 0⟩).conditions,
          e.type = "Configured" → e = d :=
  (C5_timestamp_change ⟨"", [⟨"Configured", "True", "ok", "m", 3⟩], "", none⟩ 9
    ⟨"Configured", "False", "bad", "m2", 0⟩ ⟨"Configured", "True", "ok", "m", 3⟩ (by simp) rfl
    (by simp [uniqueTypes]) (by decide)).1 (Or.inl (by decide))

/-- C6: `InitConditions` sets Phase Pending with an empty message; on a
fresh status the conditions list becomes exactly the Unknown/"Unknown"
Configured condition, and a previously True/False Configured condition is
reset to that Unknown value. -/
theorem C6_init_conditions (s : GitSyncStatus) (clock : Nat → Nat) :
    ((InitConditions s clock).phase = "Pending" ∧ (InitConditions s clock).message = "") ∧
    ((InitConditions emptyStatus clock).conditions =
      [⟨"Configured", "Unknown", "Unknown", "", clock 0⟩]) ∧
    ((∀ c ∈ s.conditions, c.type = "Configured" → c.status = "True" ∨ c.status = "False") →
      ((⟨"Configured", "Unknown", "Unknown", "", clock 0⟩ : Condition) ∈
          (InitConditions s clock).conditions) ∧
        ∀ d ∈ (InitConditions s clock).conditions, d.type = "Configured" →
          d = ⟨"Configured", "Unknown", "Unknown", "", clock 0⟩) := by
  refine ⟨⟨rfl, rfl⟩, ?_, ?_⟩
  · simp [InitConditions, InitializeConditions, setUnknownFrom, setCondition, scanConditions,
      sortByType, insertByType, SetPhase, emptyStatus, freshCondition,
      gitSyncConditionConfigured, conditionUnknown]
  · intro hprev
    have hno : ∀ c' ∈ s.conditions,
        c'.eff ≠ (freshCondition gitSyncConditionConfigured).eff := by
      intro c' hc' he
      have htc' : c'.type = "Configured" := congrArg EffCondition.type he
      have hst : c'.status = "Unknown" := congrArg EffCondition.status he
      rcases hprev c' hc' htc' with h | h
      · rw [h] at hst
        exact absurd hst (by decide)
      · rw [h] at hst
        exact absurd hst (by decide)
    have hconds : (InitConditions s clock).conditions =
        (setCondition s (clock 0) (freshCondition gitSyncConditionConfigured)).conditions := rfl
    have heff := setCondition_effective s (clock 0) (freshCondition gitSyncConditionConfigured) hno
    have hst2 : stamped (freshCondition gitSyncConditionConfigured) (clock 0) =
        ⟨"Configured", "Unknown", "Unknown", "", clock 0⟩ := rfl
    constructor
    · rw [hconds, ← hst2]
      exact (mem_effective_iff s (clock 0) _ heff _).mpr (Or.inr rfl)
    · intro d hd hdt
      rw [hconds] at hd
      rcases (mem_effective_iff s (clock 0) _ heff _).mp hd with ⟨_, hne⟩ | heq
      · exact absurd hdt hne
      · rw [heq, hst2]

theorem C6_witness :
    (∀ c ∈ (⟨"Running", [⟨"Configured", "True", "ok", "m", 3⟩], "", none⟩ :
        GitSyncStatus).conditions, c.type = "Configured" →
        c.status = "True" ∨ c.status = "False") ∧
    ((⟨"Configured", "Unknown", "Unknown", "", 7⟩ : Condition) ∈
      (InitConditions ⟨"Running", [⟨"Configured", "True", "ok", "m", 3⟩], "", none⟩
        (fun _ => 7)).conditions) := by
  constructor
  · intro c hc _
    simp only [List.mem_singleton] at hc
    subst hc
    exact Or.inl rfl
  · exact ((C6_init_conditions _ (fun _ => 7)).2.2 (by
      intro c hc _
      simp only [List.mem_singleton] at hc
      subst hc
      exact Or.inl rfl)).1

/-- C7: `MarkFailed(reason, message)` sets Phase Failed, mirrors the message
into the status Message, and upserts the Configured condition to
False/reason/message; in particular, after Scenario B it yields exactly
Phase Failed, Message "clone failed" and the single Configured/False/
"GitError"/"clone failed" condition. -/
theorem C7_mark_failed (s : GitSyncStatus) (now : Nat) (reason msg : String) :
    ((MarkFailed s now reason msg).phase = "Failed" ∧
      (MarkFailed s now reason msg).message = msg ∧
      (MarkFailed s now reason msg).conditions =
        (setCondition s now ⟨"Configured", "False", reason, msg, 0⟩).conditions) ∧
    (∀ t0 t1 t2 : Nat,
      MarkFailed (MarkRunning (InitConditions emptyStatus (fun _ => t0)) t1) t2
          "GitError" "clone failed" =
        ⟨"Failed", [⟨"Configured", "False", "GitError", "clone failed", t2⟩],
          "clone failed", none⟩) := by
  refine ⟨⟨rfl, rfl, rfl⟩, ?_⟩
  intro t0 t1 t2
  simp [InitConditions, InitializeConditions, setUnknownFrom, setCondition, scanConditions,
    sortByType, insertByType, SetPhase, emptyStatus, freshCondition, gitSyncConditionConfigured,
    conditionUnknown, conditionTrue, conditionFalse, gitSyncPhasePending, gitSyncPhaseRunning,
    gitSyncPhaseFailed, MarkRunning, MarkConditionTrue, MarkConditionFalse, markTypeStatus,
    MarkFailed]

/-- C8: initializing types "A","B" and, separately, "B","A" from an empty
status produce the same ordered Condition Set [A(Unknown,"Unknown"),
B(Unknown,"Unknown")] — the order of the type arguments does not matter. -/
theorem C8_initialize_order_independent (clock₁ clock₂ : Nat → Nat) :
    ((InitializeConditions emptyStatus clock₁ ["A", "B"]).conditions.map Condition.eff =
      [⟨"A", "Unknown", "Unknown", ""⟩, ⟨"B", "Unknown", "Unknown", ""⟩]) ∧
    ((InitializeConditions emptyStatus clock₂ ["B", "A"]).conditions.map Condition.eff =
      [⟨"A", "Unknown", "Unknown", ""⟩, ⟨"B", "Unknown", "Unknown", ""⟩]) := by
  constructor
  · simp [InitializeConditions, setUnknownFrom, setCondition, scanConditions, sortByType,
      insertByType, emptyStatus, freshCondition, conditionUnknown, Condition.eff,
      listB_not_lt_A]
  · simp [InitializeConditions, setUnknownFrom, setCondition, scanConditions, sortByType,
      insertByType, emptyStatus, freshCondition, conditionUnknown, Condition.eff,
      listA_lt_B]
